import Mathlib

/-!
# Verification of the rust-ptouch printer session and raster print protocol

Shallow embedding of `src/lib.rs` (the `PTouch` driver: device selection,
endpoint discovery, bulk read/write, the `print_raw` command sequence and its
completion-poll loop) together with the parts of the protocol that live in
sibling modules (`tiff`, `device`, `commands`), which are modelled from the
specification where their source is not available.
-/

namespace PTouchSpec

/-! ## Data model -/

/-- Abstract lower-transport (rusb) error, carried opaquely by `Error.Usb`. -/
inductive UsbError where
  | transport (code : Nat)
  deriving DecidableEq, Repr

/-- The driver error enum, from `enum Error` in `src/lib.rs`.  The two
error-bit-sets of `PTouch` are modelled as natural-number bit patterns
(`0` = empty set). -/
inductive Error where
  | Usb (e : UsbError)
  | InvalidIndex
  | NoLanguages
  | InvalidEndpoints
  | Render
  | Timeout
  | PTouch (error1 error2 : Nat)
  deriving DecidableEq, Repr

/-! ## Device selection (`PTouch::new_with_context`, src/lib.rs lines 97-136) -/

/-- `BROTHER_VID` from `src/lib.rs`. -/
def BROTHER_VID : Nat := 0x04F9

/-- A USB device as seen by the selection filter: its descriptor's
vendor id and product id, plus an opaque identity tag so distinct
devices with equal ids can be told apart. -/
structure DeviceEntry where
  vid : Nat
  pid : Nat
  tag : Nat
  deriving DecidableEq, Repr

/-- Result of device selection.  `panic` marks the case where the Rust code
reaches `matches.remove(o.index)` with `o.index` out of bounds, which panics
the process (`Vec::remove` panics on an out-of-range index). -/
inductive SelectResult where
  | ok (d : DeviceEntry)
  | invalidIndex
  | panic
  deriving DecidableEq, Repr

/-- The vid/pid filter from `new_with_context`: keep devices whose vendor id
is `BROTHER_VID` and whose product id equals the filter's device kind. -/
def matchesFilter (filterPid : Nat) (d : DeviceEntry) : Bool :=
  d.vid == BROTHER_VID && d.pid == filterPid

/-- Device selection from `PTouch::new_with_context` (src/lib.rs lines
99-136): filter the enumerated devices by vid/pid, return `InvalidIndex`
when `matches.len() < index || matches.len() == 0`, otherwise take the
`index`-th match via `matches.remove(o.index)` (which panics when the index
is out of bounds). -/
def selectDevice (devices : List DeviceEntry) (filterPid : Nat) (index : Nat) :
    SelectResult :=
  let ms := devices.filter (matchesFilter filterPid)
  if ms.length < index || ms.length == 0 then
    SelectResult.invalidIndex
  else
    match ms[index]? with
    | some d => SelectResult.ok d
    | none => SelectResult.panic

/-! ## Bulk write (`PTouch::write`, src/lib.rs lines 414-426) -/

/-- `PTouch::write`: one bulk OUT transfer.  The transport outcome is either
a lower-level error (mapped to `Error.Usb`) or the number of bytes the
transport accepted; a count differing from the requested length yields
`Error.Timeout`, otherwise success. -/
def writeBulk (data : List Nat) (outcome : Except UsbError Nat) :
    Except Error Unit :=
  match outcome with
  | Except.error e => Except.error (Error.Usb e)
  | Except.ok n =>
    if n ≠ data.length then Except.error Error.Timeout
    else Except.ok ()

/-! ## Bulk read (`PTouch::read`, src/lib.rs lines 398-411) -/

/-- `PTouch::read`: one bulk IN transfer into a fixed 32-byte zeroed buffer.
The transport outcome is either a lower-level error or the list of received
bytes (at most 32, the buffer size); fewer than 32 received bytes yield
`Error.Timeout`, otherwise the filled 32-byte buffer is returned. -/
def readBulk (outcome : Except UsbError (List Nat)) :
    Except Error (List Nat) :=
  match outcome with
  | Except.error e => Except.error (Error.Usb e)
  | Except.ok recv =>
    let buff := recv ++ List.replicate (32 - recv.length) 0
    if recv.length ≠ 32 then Except.error Error.Timeout
    else Except.ok buff

/-! ## TIFF PackBits raster codec (`tiff::compress`, module `tiff`) -/

/-- Number of leading elements of `l` equal to `b`. -/
def countRun (b : Nat) : List Nat → Nat
  | [] => 0
  | x :: xs => if x = b then countRun b xs + 1 else 0

/-- Length of the maximal leading literal run: the longest prefix in which
no byte is followed by an equal byte.  A byte immediately followed by an
equal byte ends the literal run before it (repeats require length ≥ 2). -/
def litLen : List Nat → Nat
  | [] => 0
  | [_] => 1
  | a :: b :: rest => if a = b then 0 else litLen (b :: rest) + 1

/-- Modelled from the spec: `tiff::compress` (module `tiff`, not under
`src/`), §4.2 of the specification.  PackBits-style greedy run-length
encoding: a maximal run of `r ≥ 2` identical bytes becomes the control byte
`(1 - r)` in two's complement (`(257 - r) % 256`) followed by the repeated
byte; a maximal literal run of `k` non-repeating bytes becomes the control
byte `k - 1` followed by the `k` bytes verbatim. -/
def compress : List Nat → List Nat
  | [] => []
  | b :: rest =>
    let n := countRun b rest
    if n ≠ 0 then
      ((257 - (n + 1)) % 256) :: b :: compress (rest.drop n)
    else
      let k := litLen (b :: rest)
      (k - 1) :: ((b :: rest).take k ++ compress (rest.drop (k - 1)))
  termination_by l => l.length
  decreasing_by
    · simp only [List.length_cons, List.length_drop]
      omega
    · simp only [List.length_cons, List.length_drop]
      omega

/-- Modelled from the spec: `tiff::decompress` (module `tiff`, not under
`src/`), §4.2 of the specification.  Inverse PackBits decode: a control
byte `c ≥ 129` (negative as a signed byte) expands the following byte into
`257 - c` copies; a control byte `c ≤ 127` copies the next `c + 1` bytes
verbatim. -/
def decompress : List Nat → List Nat
  | [] => []
  | c :: rest =>
    if 129 ≤ c then
      match rest with
      | [] => []
      | b :: rest2 => List.replicate (257 - c) b ++ decompress rest2
    else
      rest.take (c + 1) ++ decompress (rest.drop (c + 1))
  termination_by l => l.length
  decreasing_by
    · simp only [List.length_cons]
      omega
    · simp only [List.length_cons, List.length_drop]
      omega

theorem countRun_le_length (b : Nat) (l : List Nat) : countRun b l ≤ l.length := by
  induction l with
  | nil => simp [countRun]
  | cons x xs ih =>
    simp only [countRun, List.length_cons]
    split <;> omega

theorem countRun_replicate_append (b : Nat) (l : List Nat) :
    List.replicate (countRun b l) b ++ l.drop (countRun b l) = l := by
  induction l with
  | nil => simp [countRun]
  | cons x xs ih =>
    by_cases h : x = b
    · subst h
      simp only [countRun, if_true, List.replicate_succ, List.cons_append,
        List.drop_succ_cons, ih]
    · simp [countRun, h]

theorem litLen_pos (a : Nat) (l : List Nat) (h : countRun a l = 0) :
    1 ≤ litLen (a :: l) := by
  cases l with
  | nil => simp [litLen]
  | cons x xs =>
    simp only [countRun] at h
    have hxa : ¬ a = x := by
      intro hx
      subst hx
      simp at h
    simp only [litLen, if_neg hxa]
    omega

theorem litLen_le_length (l : List Nat) : litLen l ≤ l.length := by
  induction l with
  | nil => simp [litLen]
  | cons a rest ih =>
    cases rest with
    | nil => simp [litLen]
    | cons b r2 =>
      simp only [litLen, List.length_cons]
      split
      · omega
      · simp only [List.length_cons] at ih
        omega

/-- Round-trip of the PackBits codec for all byte lists of length at most
128 (so every control byte is unambiguous), by strong induction on a length
bound. -/
theorem decompress_compress_bounded :
    ∀ (fuel : Nat) (l : List Nat), l.length ≤ fuel → l.length ≤ 128 →
      decompress (compress l) = l := by
  intro fuel
  induction fuel with
  | zero =>
    intro l hf _
    have : l = [] := List.length_eq_zero.mp (Nat.le_zero.mp hf)
    subst this
    simp [compress, decompress]
  | succ m ih =>
    intro l hf h128
    cases l with
    | nil => simp [compress, decompress]
    | cons b rest =>
      simp only [List.length_cons] at hf h128
      by_cases hn : countRun b rest = 0
      · -- literal run branch
        rw [compress]
        simp only [hn, ne_eq, not_true_eq_false, if_false, ite_false]
        set k := litLen (b :: rest) with hk
        have hk1 : 1 ≤ k := litLen_pos b rest hn
        have hkle : k ≤ rest.length + 1 := by
          have := litLen_le_length (b :: rest)
          simpa using this
        have hctrl : ¬ 129 ≤ k - 1 := by omega
        rw [decompress.eq_def]
        simp only [if_neg hctrl]
        have hksub : k - 1 + 1 = k := by omega
        rw [hksub]
        have htk : ((b :: rest).take k).length = k := by
          simp [List.length_take]
          omega
        have htake :
            ((b :: rest).take k ++ compress (rest.drop (k - 1))).take k =
              (b :: rest).take k := by
          rw [List.take_append_of_le_length (by omega)]
          simp [List.take_take]
        have hdrop :
            ((b :: rest).take k ++ compress (rest.drop (k - 1))).drop k =
              compress (rest.drop (k - 1)) := by
          rw [List.drop_append_of_le_length (by omega)]
          simp [htk]
        rw [htake, hdrop]
        have hrt : decompress (compress (rest.drop (k - 1))) = rest.drop (k - 1) := by
          apply ih
          · have := List.length_drop (k - 1) rest
            omega
          · have := List.length_drop (k - 1) rest
            omega
        rw [hrt]
        have hdk : (b :: rest).drop k = rest.drop (k - 1) := by
          conv_lhs => rw [show k = (k - 1) + 1 by omega]
          simp
        rw [← hdk, List.take_append_drop]
      · -- repeat run branch
        rw [compress]
        simp only [hn, ne_eq, not_false_eq_true, if_true, ite_true]
        set n := countRun b rest with hnd
        have hnle : n ≤ rest.length := countRun_le_length b rest
        have hn1 : 1 ≤ n := by omega
        have hn127 : n ≤ 127 := by omega
        have hc : (257 - (n + 1)) % 256 = 256 - n := by omega
        rw [hc]
        rw [decompress.eq_def]
        have h129 : 129 ≤ 256 - n := by omega
        simp only [if_pos h129]
        have hexp : 257 - (256 - n) = n + 1 := by omega
        rw [hexp]
        have hrt : decompress (compress (rest.drop n)) = rest.drop n := by
          apply ih
          · have := List.length_drop n rest
            omega
          · have := List.length_drop n rest
            omega
        rw [hrt]
        rw [List.replicate_succ, List.cons_append]
        rw [countRun_replicate_append b rest]

/-! ## Endpoint discovery (`PTouch::new_with_context`, src/lib.rs lines
162-192) -/

/-- USB transfer types, as in rusb's `TransferType`. -/
inductive TransferType where
  | Control
  | Isochronous
  | Bulk
  | Interrupt
  deriving DecidableEq, Repr

/-- USB transfer direction, as in rusb's `Direction`. -/
inductive Direction where
  | In
  | Out
  deriving DecidableEq, Repr

/-- An endpoint descriptor: transfer type, direction, endpoint address. -/
structure EndpointDescriptor where
  transferType : TransferType
  direction : Direction
  address : Nat
  deriving DecidableEq, Repr

/-- One interface descriptor (alternate setting) with its endpoint
descriptors. -/
structure InterfaceDescriptor where
  endpointDescriptors : List EndpointDescriptor
  deriving DecidableEq, Repr

/-- One interface of the configuration descriptor, as a list of interface
descriptors. -/
structure UsbInterface where
  descriptors : List InterfaceDescriptor
  deriving DecidableEq, Repr

/-- The loop body of the endpoint scan: a bulk IN endpoint overwrites the
status endpoint, a bulk OUT endpoint overwrites the command endpoint, and
every other endpoint is skipped (`(_, _) => continue`).  The accumulator is
`(cmd_ep, stat_ep)`. -/
def epStep (acc : Option Nat × Option Nat) (ep : EndpointDescriptor) :
    Option Nat × Option Nat :=
  match ep.transferType, ep.direction with
  | TransferType.Bulk, Direction.In => (acc.1, some ep.address)
  | TransferType.Bulk, Direction.Out => (some ep.address, acc.2)
  | _, _ => acc

/-- Endpoint discovery from `PTouch::new_with_context` (src/lib.rs lines
162-192): take the first interface of the configuration descriptor (failing
with `InvalidEndpoints` when there is none), scan every endpoint descriptor
of every interface descriptor starting from `(None, None)`, and fail with
`InvalidEndpoints` unless both a command (bulk OUT) and a status (bulk IN)
endpoint were recorded. -/
def findEndpoints (interfaces : List UsbInterface) : Except Error (Nat × Nat) :=
  match interfaces.head? with
  | none => Except.error Error.InvalidEndpoints
  | some intf =>
    let acc := intf.descriptors.foldl
      (fun acc idesc => idesc.endpointDescriptors.foldl epStep acc)
      (none, none)
    match acc with
    | (some cmd, some stat) => Except.ok (cmd, stat)
    | _ => Except.error Error.InvalidEndpoints

/-- Whether an endpoint descriptor is a bulk endpoint of direction `d`. -/
def isBulkDir (d : Direction) (ep : EndpointDescriptor) : Bool :=
  ep.transferType == TransferType.Bulk && ep.direction == d

theorem foldl_nested_eq_join (dss : List InterfaceDescriptor)
    (a : Option Nat × Option Nat) :
    dss.foldl (fun acc idesc => idesc.endpointDescriptors.foldl epStep acc) a =
      ((dss.map InterfaceDescriptor.endpointDescriptors).flatten).foldl epStep a := by
  induction dss generalizing a with
  | nil => simp
  | cons d rest ih =>
    simp only [List.foldl_cons, List.map_cons, List.flatten_cons, List.foldl_append]
    exact ih (List.foldl epStep a d.endpointDescriptors)

theorem epStep_fst_of_not_out (a : Option Nat × Option Nat)
    (ep : EndpointDescriptor) (h : ¬ isBulkDir Direction.Out ep = true) :
    (epStep a ep).1 = a.1 := by
  unfold epStep isBulkDir at *
  cases htt : ep.transferType <;> cases hd : ep.direction <;>
    simp_all

theorem epStep_snd_of_not_in (a : Option Nat × Option Nat)
    (ep : EndpointDescriptor) (h : ¬ isBulkDir Direction.In ep = true) :
    (epStep a ep).2 = a.2 := by
  unfold epStep isBulkDir at *
  cases htt : ep.transferType <;> cases hd : ep.direction <;>
    simp_all

theorem epStep_fst_of_out (a : Option Nat × Option Nat)
    (ep : EndpointDescriptor) (h : isBulkDir Direction.Out ep = true) :
    (epStep a ep).1 = some ep.address := by
  unfold epStep isBulkDir at *
  cases htt : ep.transferType <;> cases hd : ep.direction <;>
    simp_all

theorem epStep_snd_of_in (a : Option Nat × Option Nat)
    (ep : EndpointDescriptor) (h : isBulkDir Direction.In ep = true) :
    (epStep a ep).2 = some ep.address := by
  unfold epStep isBulkDir at *
  cases htt : ep.transferType <;> cases hd : ep.direction <;>
    simp_all

/-- The first component of the endpoint fold: either no bulk OUT endpoint
occurs and the accumulator is unchanged, or it holds the address of a bulk
OUT endpoint of the list. -/
theorem foldl_epStep_fst (eps : List EndpointDescriptor) :
    ∀ a : Option Nat × Option Nat,
      ((eps.foldl epStep a).1 = a.1 ∧
        ¬ ∃ ep ∈ eps, isBulkDir Direction.Out ep = true) ∨
      (∃ ep ∈ eps, isBulkDir Direction.Out ep = true ∧
        (eps.foldl epStep a).1 = some ep.address) := by
  induction eps with
  | nil =>
    intro a
    left
    simp
  | cons ep rest ih =>
    intro a
    simp only [List.foldl_cons]
    rcases ih (epStep a ep) with ⟨heq, hnone⟩ | ⟨ep', hmem, hout, haddr⟩
    · by_cases hout : isBulkDir Direction.Out ep = true
      · right
        refine ⟨ep, by simp, hout, ?_⟩
        rw [heq, epStep_fst_of_out a ep hout]
      · left
        constructor
        · rw [heq, epStep_fst_of_not_out a ep hout]
        · intro ⟨e, hmem, he⟩
          rcases List.mem_cons.mp hmem with rfl | hmem'
          · exact hout he
          · exact hnone ⟨e, hmem', he⟩
    · right
      exact ⟨ep', List.mem_cons_of_mem ep hmem, hout, haddr⟩

/-- The second component of the endpoint fold: either no bulk IN endpoint
occurs and the accumulator is unchanged, or it holds the address of a bulk
IN endpoint of the list. -/
theorem foldl_epStep_snd (eps : List EndpointDescriptor) :
    ∀ a : Option Nat × Option Nat,
      ((eps.foldl epStep a).2 = a.2 ∧
        ¬ ∃ ep ∈ eps, isBulkDir Direction.In ep = true) ∨
      (∃ ep ∈ eps, isBulkDir Direction.In ep = true ∧
        (eps.foldl epStep a).2 = some ep.address) := by
  induction eps with
  | nil =>
    intro a
    left
    simp
  | cons ep rest ih =>
    intro a
    simp only [List.foldl_cons]
    rcases ih (epStep a ep) with ⟨heq, hnone⟩ | ⟨ep', hmem, hin, haddr⟩
    · by_cases hin : isBulkDir Direction.In ep = true
      · right
        refine ⟨ep, by simp, hin, ?_⟩
        rw [heq, epStep_snd_of_in a ep hin]
      · left
        constructor
        · rw [heq, epStep_snd_of_not_in a ep hin]
        · intro ⟨e, hmem, he⟩
          rcases List.mem_cons.mp hmem with rfl | hmem'
          · exact hin he
          · exact hnone ⟨e, hmem', he⟩
    · right
      exact ⟨ep', List.mem_cons_of_mem ep hmem, hin, haddr⟩

/-- All endpoint descriptors of an interface, across its interface
descriptors, in scan order. -/
def flatEps (intf : UsbInterface) : List EndpointDescriptor :=
  (intf.descriptors.map InterfaceDescriptor.endpointDescriptors).flatten

/-! ## Status frames and the completion-poll loop
(`PTouch::print_raw`, src/lib.rs lines 363-391) -/

/-- Modelled from the spec: the status-type field of a decoded status frame
(module `device`, not under `src/`): phase-change, printing-completed,
error-occurred, notify, or other. -/
inductive DeviceStatus where
  | PhaseChange
  | Completed
  | ErrorOccurred
  | Notify
  | Other
  deriving DecidableEq, Repr

/-- Modelled from the spec: the decoded status frame (module `device`, not
under `src/`): a status-type and two independent error-bit-sets, modelled as
natural-number bit patterns (`0` = empty). -/
structure Status where
  status_type : DeviceStatus
  error1 : Nat
  error2 : Nat
  deriving DecidableEq, Repr

/-- Outcome of the completion-poll loop in `print_raw`. -/
inductive PollResult where
  | completed
  | ptouch (error1 error2 : Nat)
  | timeout
  deriving DecidableEq, Repr

/-- The body of one poll iteration applied to a `read_status` outcome
(`none` = the read failed and was swallowed by the `if let Ok(s)` pattern):
a frame with a non-empty error-bit-set terminates with `PTouch` carrying
both bit-sets; a `Completed` status-type terminates with success; anything
else (including `PhaseChange`, which is only logged) continues the loop. -/
def checkStatus (o : Option Status) : Option PollResult :=
  match o with
  | none => none
  | some s =>
    if s.error1 ≠ 0 ∨ s.error2 ≠ 0 then some (PollResult.ptouch s.error1 s.error2)
    else if s.status_type = DeviceStatus.Completed then some PollResult.completed
    else none

/-- The completion-poll loop of `print_raw` (src/lib.rs lines 363-391).
`reads k` is the outcome of the `k`-th `read_status` call; `i` is the loop
counter (`let mut i = 0`).  Each iteration reads a status, processes it,
then checks `i > 10` (returning `Timeout`), increments `i` and sleeps one
second.  The returned triple is (result, number of `read_status` attempts,
number of one-second sleeps). -/
def pollLoop (reads : Nat → Option Status) (k i : Nat) :
    PollResult × Nat × Nat :=
  match checkStatus (reads k) with
  | some r => (r, 1, 0)
  | none =>
    if 10 < i then (PollResult.timeout, 1, 0)
    else
      let t := pollLoop reads (k + 1) (i + 1)
      (t.1, t.2.1 + 1, t.2.2 + 1)
  termination_by 11 - i
  decreasing_by omega

/-- Unfolding helper: the poll loop as one explicit step. -/
theorem pollLoop_step (reads : Nat → Option Status) (k i : Nat) :
    pollLoop reads k i =
      match checkStatus (reads k) with
      | some r => (r, 1, 0)
      | none =>
        if 10 < i then (PollResult.timeout, 1, 0)
        else
          ((pollLoop reads (k + 1) (i + 1)).1,
           (pollLoop reads (k + 1) (i + 1)).2.1 + 1,
           (pollLoop reads (k + 1) (i + 1)).2.2 + 1) := by
  rw [pollLoop]

/-- If every `read_status` outcome is non-terminal, the loop times out
having performed `12 - i` reads and `11 - i` sleeps (counting from loop
counter `i ≤ 11`). -/
theorem pollLoop_all_nonterminal (reads : Nat → Option Status)
    (h : ∀ k, checkStatus (reads k) = none) :
    ∀ j, j ≤ 11 → ∀ k, pollLoop reads k (11 - j) = (PollResult.timeout, j + 1, j) := by
  intro j
  induction j with
  | zero =>
    intro _ k
    rw [pollLoop_step, h k]
    norm_num
  | succ m ihm =>
    intro hj k
    rw [pollLoop_step, h k]
    have hlt : ¬ 10 < 11 - (m + 1) := by omega
    simp only [if_neg hlt]
    have hstep : 11 - (m + 1) + 1 = 11 - m := by omega
    rw [hstep, ihm (by omega) (k + 1)]

/-- The poll loop reaching a read whose frame has a non-empty error-bit-set:
if the first `d` outcomes are non-terminal and the loop has `d` iterations
left before its bound, the result carries both bit-sets of that frame. -/
theorem pollLoop_error_frame (d : Nat) :
    ∀ (reads : Nat → Option Status) (k i : Nat) (s : Status),
      i + d ≤ 11 →
      (∀ j, j < d → checkStatus (reads (k + j)) = none) →
      reads (k + d) = some s →
      (s.error1 ≠ 0 ∨ s.error2 ≠ 0) →
      (pollLoop reads k i).1 = PollResult.ptouch s.error1 s.error2 := by
  induction d with
  | zero =>
    intro reads k i s _ _ hread herr
    rw [pollLoop_step]
    simp only [Nat.add_zero] at hread
    rw [hread]
    simp [checkStatus, herr]
  | succ m ihm =>
    intro reads k i s hbound hpre hread herr
    rw [pollLoop_step]
    have h0 : checkStatus (reads k) = none := by
      have := hpre 0 (by omega)
      simpa using this
    rw [h0]
    have hlt : ¬ 10 < i := by omega
    simp only [if_neg hlt]
    apply ihm reads (k + 1) (i + 1) s (by omega)
    · intro j hj
      have := hpre (j + 1) (by omega)
      have harg : k + (j + 1) = k + 1 + j := by omega
      rw [harg] at this
      exact this
    · have harg : k + (m + 1) = k + 1 + m := by omega
      rw [harg] at hread
      exact hread
    · exact herr

/-! ## The print sequence (`PTouch::print_raw`, src/lib.rs lines 283-395)
as a trace of transmitted command frames -/

/-- Modelled from the spec: the communication mode sent by `switch_mode`
(module `device`, not under `src/`); the print sequence uses raster mode. -/
inductive Mode where
  | Raster
  deriving DecidableEq, Repr

/-- Modelled from the spec: the `VariousMode` bit-flag set (module
`device`, not under `src/`); the only flag named by the spec is auto-cut. -/
structure VariousMode where
  autoCut : Bool
  deriving DecidableEq, Repr

/-- `VariousMode::AUTO_CUT`. -/
def VariousMode.AUTO_CUT : VariousMode := ⟨true⟩

/-- Modelled from the spec: the `AdvancedMode` bit-flag set (module
`device`, not under `src/`); the only flag named by the spec is no-chain. -/
structure AdvancedMode where
  noChain : Bool
  deriving DecidableEq, Repr

/-- `AdvancedMode::NO_CHAIN`. -/
def AdvancedMode.NO_CHAIN : AdvancedMode := ⟨true⟩

/-- Modelled from the spec: the compression-mode select (module `device`,
not under `src/`): none or TIFF PackBits. -/
inductive CompressionMode where
  | NoCompression
  | Tiff
  deriving DecidableEq, Repr

/-- Modelled from the spec: the `PrintInfo` record (module `device`, not
under `src/`): media type, width, length and a flag recording whether the
length is specified.  It is carried opaquely by the print-info command. -/
structure PrintInfo where
  mediaType : Nat
  width : Nat
  length : Nat
  lengthSpecified : Bool
  deriving DecidableEq, Repr

/-- One transmitted frame (or, for `statusRead`, one attempted bulk IN
transfer), named after the `Commands` methods `print_raw` calls. -/
inductive Ev where
  | switchMode (m : Mode)
  | setStatusNotify (enabled : Bool)
  | setPrintInfo (info : PrintInfo)
  | setVariousMode (v : VariousMode)
  | setAdvancedMode (a : AdvancedMode)
  | setMargin (amount : Nat)
  | setCompressionMode (c : CompressionMode)
  | rasterTransfer (bytes : List Nat)
  | printAndFeed
  | statusReq
  | statusRead
  deriving DecidableEq, Repr

/-- State threaded through the print sequence: the index of the next bulk
write (consulted in the write oracle) and the trace of frames transmitted
so far. -/
abbrev CmdState := Nat × List Ev

/-- Sending one command frame: the write oracle `wr` gives the outcome of
the `n`-th bulk write (`none` = all bytes accepted).  On failure the error
is returned together with the trace so far (the frame is not recorded); on
success the frame is appended to the trace. -/
def cmd (wr : Nat → Option Error) (e : Ev) (st : CmdState) :
    Except (Error × List Ev) CmdState :=
  match wr st.1 with
  | some err => Except.error (err, st.2)
  | none => Except.ok (st.1 + 1, st.2 ++ [e])

/-- The raster-data loop of `print_raw` (src/lib.rs lines 327-331): each
line is TIFF-compressed and sent with `raster_transfer`, in input order. -/
def sendRasters (wr : Nat → Option Error) (lines : List (List Nat))
    (st : CmdState) : Except (Error × List Ev) CmdState :=
  match lines with
  | [] => Except.ok st
  | line :: rest => do
    let st1 ← cmd wr (Ev.rasterTransfer (compress line)) st
    sendRasters wr rest st1

/-- The straight-line command part of `print_raw` (src/lib.rs lines
283-361): the seven configuration commands in protocol order, the raster
lines, then `print_and_feed`. -/
def sendCommands (data : List (List Nat)) (info : PrintInfo)
    (wr : Nat → Option Error) : Except (Error × List Ev) CmdState := do
  let st ← cmd wr (Ev.switchMode Mode.Raster) (0, [])
  let st ← cmd wr (Ev.setStatusNotify true) st
  let st ← cmd wr (Ev.setPrintInfo info) st
  let st ← cmd wr (Ev.setVariousMode VariousMode.AUTO_CUT) st
  let st ← cmd wr (Ev.setAdvancedMode AdvancedMode.NO_CHAIN) st
  let st ← cmd wr (Ev.setMargin 14) st
  let st ← cmd wr (Ev.setCompressionMode CompressionMode.Tiff) st
  let st ← sendRasters wr data st
  cmd wr Ev.printAndFeed st

/-- Modelled from the spec: `Commands::read_status` (module `commands`, not
under `src/`), §4.4: issue a `status_request` command (one bulk write) and
then attempt one status read; any failure makes the whole call fail, which
the poll loop swallows (`none`).  `reads k` is the outcome of the `k`-th
poll read. -/
def readStatus (wr : Nat → Option Error) (reads : Nat → Option Status)
    (k : Nat) (st : CmdState) : Option Status × CmdState :=
  match wr st.1 with
  | some _ => (none, (st.1 + 1, st.2))
  | none => (reads k, (st.1 + 1, st.2 ++ [Ev.statusReq, Ev.statusRead]))

/-- The per-iteration processing of a `read_status` outcome in the poll
loop, as the terminal result it forces (if any). -/
def stepResult (o : Option Status) : Option (Except Error Unit) :=
  match o with
  | none => none
  | some s =>
    if s.error1 ≠ 0 ∨ s.error2 ≠ 0 then
      some (Except.error (Error.PTouch s.error1 s.error2))
    else if s.status_type = DeviceStatus.Completed then some (Except.ok ())
    else none

/-- The completion-poll loop of `print_raw`, with its transmitted frames:
each iteration performs a `read_status` (a status-request write and a read
attempt), terminates on an error frame or a completed frame, and otherwise
checks the `i > 10` bound before retrying. -/
def pollTrace (wr : Nat → Option Error) (reads : Nat → Option Status)
    (k i : Nat) (st : CmdState) : Except Error Unit × List Ev :=
  let p := readStatus wr reads k st
  match stepResult p.1 with
  | some r => (r, p.2.2)
  | none =>
    if 10 < i then (Except.error Error.Timeout, p.2.2)
    else pollTrace wr reads (k + 1) (i + 1) p.2
  termination_by 11 - i
  decreasing_by omega

/-- `PTouch::print_raw` (src/lib.rs lines 283-395): the command sequence
followed by the completion poll.  Returns the call's outcome and the trace
of transmitted frames. -/
def printRaw (data : List (List Nat)) (info : PrintInfo)
    (wr : Nat → Option Error) (reads : Nat → Option Status) :
    Except Error Unit × List Ev :=
  match sendCommands data info wr with
  | Except.error (e, tr) => (Except.error e, tr)
  | Except.ok st => pollTrace wr reads 0 0 st

/-- The seven configuration frames of the print sequence, in order. -/
def configEvents (info : PrintInfo) : List Ev :=
  [Ev.switchMode Mode.Raster, Ev.setStatusNotify true, Ev.setPrintInfo info,
   Ev.setVariousMode VariousMode.AUTO_CUT,
   Ev.setAdvancedMode AdvancedMode.NO_CHAIN, Ev.setMargin 14,
   Ev.setCompressionMode CompressionMode.Tiff]

/-- `m` status-request/read pairs. -/
def pollPairs : Nat → List Ev
  | 0 => []
  | m + 1 => Ev.statusReq :: Ev.statusRead :: pollPairs m

/-- Inversion of a successful `Except` bind. -/
theorem ebind_ok {ε α β : Type} {x : Except ε α} {f : α → Except ε β} {b : β}
    (h : (x >>= f) = Except.ok b) : ∃ a, x = Except.ok a ∧ f a = Except.ok b := by
  cases x with
  | error e => simp [Bind.bind, Except.bind] at h
  | ok a => exact ⟨a, rfl, by simpa [Bind.bind, Except.bind] using h⟩

/-- Inversion of a failed `Except` bind. -/
theorem ebind_err {ε α β : Type} {x : Except ε α} {f : α → Except ε β} {p : ε}
    (h : (x >>= f) = Except.error p) :
    x = Except.error p ∨ ∃ a, x = Except.ok a ∧ f a = Except.error p := by
  cases x with
  | error e => left; simpa [Bind.bind, Except.bind] using h
  | ok a => right; exact ⟨a, rfl, by simpa [Bind.bind, Except.bind] using h⟩

/-- A successful `cmd` advances the write counter and appends the frame. -/
theorem cmd_ok {wr : Nat → Option Error} {e : Ev} {st st' : CmdState}
    (h : cmd wr e st = Except.ok st') : st' = (st.1 + 1, st.2 ++ [e]) := by
  unfold cmd at h
  cases hw : wr st.1 with
  | some err => rw [hw] at h; cases h
  | none =>
    rw [hw] at h
    injection h with h
    exact h.symm

/-- A failed `cmd` reports the trace transmitted so far. -/
theorem cmd_err {wr : Nat → Option Error} {e : Ev} {st : CmdState}
    {er : Error} {tr : List Ev}
    (h : cmd wr e st = Except.error (er, tr)) : tr = st.2 := by
  unfold cmd at h
  cases hw : wr st.1 with
  | some err =>
    rw [hw] at h
    injection h with h
    exact (congrArg Prod.snd h).symm
  | none => rw [hw] at h; cases h

/-- A successful raster loop appends one raster-transfer frame per input
line, in input order, each carrying the TIFF-compressed line. -/
theorem sendRasters_ok {wr : Nat → Option Error} (lines : List (List Nat)) :
    ∀ {st st' : CmdState}, sendRasters wr lines st = Except.ok st' →
      st'.2 = st.2 ++ lines.map (fun l => Ev.rasterTransfer (compress l)) := by
  induction lines with
  | nil =>
    intro st st' h
    unfold sendRasters at h
    injection h with h
    rw [← h]
    simp
  | cons line rest ih =>
    intro st st' h
    unfold sendRasters at h
    obtain ⟨st1, h1, h2⟩ := ebind_ok h
    have e1 := cmd_ok h1
    have e2 := ih h2
    subst e1
    rw [e2]
    simp

/-- A failed raster loop has transmitted only raster-transfer frames beyond
the incoming trace. -/
theorem sendRasters_err {wr : Nat → Option Error} (lines : List (List Nat)) :
    ∀ {st : CmdState} {er : Error} {tr : List Ev},
      sendRasters wr lines st = Except.error (er, tr) →
      ∃ pre, tr = st.2 ++ pre ∧ ∀ e ∈ pre, ∃ bytes, e = Ev.rasterTransfer bytes := by
  induction lines with
  | nil =>
    intro st er tr h
    unfold sendRasters at h
    cases h
  | cons line rest ih =>
    intro st er tr h
    unfold sendRasters at h
    rcases ebind_err h with herr | ⟨st1, h1, h2⟩
    · have := cmd_err herr
      exact ⟨[], by simp [this], by simp⟩
    · have e1 := cmd_ok h1
      obtain ⟨pre, hpre, hall⟩ := ih h2
      subst e1
      refine ⟨Ev.rasterTransfer (compress line) :: pre, ?_, ?_⟩
      · rw [hpre]; simp
      · intro e he
        rcases List.mem_cons.mp he with rfl | hm
        · exact ⟨compress line, rfl⟩
        · exact hall e hm

/-- On a failed status-request write, `read_status` fails (no frame, no
transmitted event). -/
theorem readStatus_wr_fail {wr : Nat → Option Error} {reads : Nat → Option Status}
    {k : Nat} {st : CmdState} {e : Error} (h : wr st.1 = some e) :
    readStatus wr reads k st = (none, (st.1 + 1, st.2)) := by
  unfold readStatus
  rw [h]

/-- On a successful status-request write, `read_status` transmits the
request, attempts the read, and returns the read outcome. -/
theorem readStatus_wr_ok {wr : Nat → Option Error} {reads : Nat → Option Status}
    {k : Nat} {st : CmdState} (h : wr st.1 = none) :
    readStatus wr reads k st =
      (reads k, (st.1 + 1, st.2 ++ [Ev.statusReq, Ev.statusRead])) := by
  unfold readStatus
  rw [h]

/-- One unfolding of the poll loop. -/
theorem pollTrace_step (wr : Nat → Option Error) (reads : Nat → Option Status)
    (k i : Nat) (st : CmdState) :
    pollTrace wr reads k i st =
      match stepResult (readStatus wr reads k st).1 with
      | some r => (r, (readStatus wr reads k st).2.2)
      | none =>
        if 10 < i then (Except.error Error.Timeout, (readStatus wr reads k st).2.2)
        else pollTrace wr reads (k + 1) (i + 1) (readStatus wr reads k st).2 := by
  rw [pollTrace]

/-- An iteration that terminates the poll loop has transmitted exactly one
status-request/read pair. -/
theorem pollTrace_terminal_trace {wr : Nat → Option Error}
    {reads : Nat → Option Status} {k : Nat} {st : CmdState}
    {r : Except Error Unit}
    (ho : stepResult (readStatus wr reads k st).1 = some r) :
    (readStatus wr reads k st).2.2 = st.2 ++ pollPairs 1 := by
  cases hw : wr st.1 with
  | some e =>
    rw [readStatus_wr_fail hw] at ho
    simp [stepResult] at ho
  | none =>
    rw [readStatus_wr_ok hw]
    simp [pollPairs]

/-- A successful poll loop appends one or more status-request/read pairs to
the incoming trace and nothing else. -/
theorem pollTrace_ok_pairs (wr : Nat → Option Error)
    (reads : Nat → Option Status) :
    ∀ (d i : Nat), 11 - i = d → ∀ (k : Nat) (st : CmdState) (tr : List Ev),
      pollTrace wr reads k i st = (Except.ok (), tr) →
      ∃ m, 1 ≤ m ∧ tr = st.2 ++ pollPairs m := by
  intro d
  induction d with
  | zero =>
    intro i hi k st tr h
    have h10 : 10 < i := by omega
    rw [pollTrace_step] at h
    cases ho : stepResult (readStatus wr reads k st).1 with
    | none =>
      rw [ho] at h
      rw [if_pos h10] at h
      injection h with h1 h2
      cases h1
    | some r =>
      rw [ho] at h
      injection h with h1 h2
      exact ⟨1, by omega, by rw [← h2, pollTrace_terminal_trace ho]⟩
  | succ dm ihd =>
    intro i hi k st tr h
    rw [pollTrace_step] at h
    cases ho : stepResult (readStatus wr reads k st).1 with
    | some r =>
      rw [ho] at h
      injection h with h1 h2
      exact ⟨1, by omega, by rw [← h2, pollTrace_terminal_trace ho]⟩
    | none =>
      rw [ho] at h
      have h10 : ¬ 10 < i := by omega
      rw [if_neg h10] at h
      obtain ⟨m, hm, htr⟩ :=
        ihd (i + 1) (by omega) (k + 1) ((readStatus wr reads k st).2) tr h
      cases hw : wr st.1 with
      | some e =>
        rw [readStatus_wr_fail hw] at htr
        exact ⟨m, hm, by simpa using htr⟩
      | none =>
        rw [readStatus_wr_ok hw] at htr
        refine ⟨m + 1, by omega, ?_⟩
        rw [htr]
        simp [pollPairs]

/-- Whatever its outcome, the poll loop transmits only status-request
frames (and read attempts) beyond the incoming trace. -/
theorem pollTrace_trace_status (wr : Nat → Option Error)
    (reads : Nat → Option Status) :
    ∀ (d i : Nat), 11 - i = d →
      ∀ (k : Nat) (st : CmdState) (res : Except Error Unit) (tr : List Ev),
        pollTrace wr reads k i st = (res, tr) →
        ∃ pre, tr = st.2 ++ pre ∧
          ∀ e ∈ pre, e = Ev.statusReq ∨ e = Ev.statusRead := by
  have hterm : ∀ (k : Nat) (st : CmdState),
      ∃ pre, (readStatus wr reads k st).2.2 = st.2 ++ pre ∧
        ∀ e ∈ pre, e = Ev.statusReq ∨ e = Ev.statusRead := by
    intro k st
    cases hw : wr st.1 with
    | some e =>
      rw [readStatus_wr_fail hw]
      exact ⟨[], by simp, by simp⟩
    | none =>
      rw [readStatus_wr_ok hw]
      refine ⟨[Ev.statusReq, Ev.statusRead], by simp, ?_⟩
      intro e he
      rcases List.mem_cons.mp he with rfl | he2
      · left; rfl
      · rcases List.mem_cons.mp he2 with rfl | he3
        · right; rfl
        · cases he3
  intro d
  induction d with
  | zero =>
    intro i hi k st res tr h
    have h10 : 10 < i := by omega
    rw [pollTrace_step] at h
    cases ho : stepResult (readStatus wr reads k st).1 with
    | some r =>
      rw [ho] at h
      injection h with h1 h2
      rw [← h2]
      exact hterm k st
    | none =>
      rw [ho] at h
      rw [if_pos h10] at h
      injection h with h1 h2
      rw [← h2]
      exact hterm k st
  | succ dm ihd =>
    intro i hi k st res tr h
    rw [pollTrace_step] at h
    cases ho : stepResult (readStatus wr reads k st).1 with
    | some r =>
      rw [ho] at h
      injection h with h1 h2
      rw [← h2]
      exact hterm k st
    | none =>
      rw [ho] at h
      by_cases h10 : 10 < i
      · rw [if_pos h10] at h
        injection h with h1 h2
        rw [← h2]
        exact hterm k st
      · rw [if_neg h10] at h
        obtain ⟨pre2, htr2, hall2⟩ :=
          ihd (i + 1) (by omega) (k + 1) ((readStatus wr reads k st).2) res tr h
        obtain ⟨pre1, htr1, hall1⟩ := hterm k st
        refine ⟨pre1 ++ pre2, ?_, ?_⟩
        · rw [htr2, htr1]
          simp
        · intro e he
          rcases List.mem_append.mp he with hm | hm
          · exact hall1 e hm
          · exact hall2 e hm

/-- A successful command phase transmits exactly the seven configuration
frames, the raster-transfer frames in input order, and print-and-feed. -/
theorem sendCommands_ok {data : List (List Nat)} {info : PrintInfo}
    {wr : Nat → Option Error} {st : CmdState}
    (h : sendCommands data info wr = Except.ok st) :
    st.2 = configEvents info ++
      data.map (fun l => Ev.rasterTransfer (compress l)) ++ [Ev.printAndFeed] := by
  unfold sendCommands at h
  obtain ⟨s1, h1, h⟩ := ebind_ok h
  obtain ⟨s2, h2, h⟩ := ebind_ok h
  obtain ⟨s3, h3, h⟩ := ebind_ok h
  obtain ⟨s4, h4, h⟩ := ebind_ok h
  obtain ⟨s5, h5, h⟩ := ebind_ok h
  obtain ⟨s6, h6, h⟩ := ebind_ok h
  obtain ⟨s7, h7, h⟩ := ebind_ok h
  obtain ⟨s8, h8, h⟩ := ebind_ok h
  have e9 := cmd_ok h
  have e1 := cmd_ok h1
  subst e1
  have e2 := cmd_ok h2
  subst e2
  have e3 := cmd_ok h3
  subst e3
  have e4 := cmd_ok h4
  subst e4
  have e5 := cmd_ok h5
  subst e5
  have e6 := cmd_ok h6
  subst e6
  have e7 := cmd_ok h7
  subst e7
  have e8 := sendRasters_ok data h8
  subst e9
  simp only [] at e8 ⊢
  rw [e8]
  simp [configEvents]

/-- The frame parameters `print_raw` hard-codes: every margin frame carries
amount 14, every various-mode frame carries exactly the auto-cut flag, and
every advanced-mode frame carries exactly the no-chain flag. -/
def evFixed : Ev → Prop
  | Ev.setMargin n => n = 14
  | Ev.setVariousMode v => v = VariousMode.AUTO_CUT
  | Ev.setAdvancedMode a => a = AdvancedMode.NO_CHAIN
  | _ => True

/-- Whatever the failure point, a failed command phase has transmitted only
frames with the hard-coded parameters. -/
theorem sendCommands_err {data : List (List Nat)} {info : PrintInfo}
    {wr : Nat → Option Error} {er : Error} {tr : List Ev}
    (h : sendCommands data info wr = Except.error (er, tr)) :
    ∀ e ∈ tr, evFixed e := by
  unfold sendCommands at h
  rcases ebind_err h with h | ⟨s1, h1, h⟩
  · have h0 := cmd_err h
    subst h0
    intro e he
    fin_cases he
  rcases ebind_err h with h | ⟨s2, h2, h⟩
  · have h0 := cmd_err h
    have e1 := cmd_ok h1
    subst e1 h0
    intro e he
    fin_cases he <;> simp [evFixed]
  rcases ebind_err h with h | ⟨s3, h3, h⟩
  · have h0 := cmd_err h
    have e1 := cmd_ok h1
    subst e1
    have e2 := cmd_ok h2
    subst e2 h0
    intro e he
    fin_cases he <;> simp [evFixed]
  rcases ebind_err h with h | ⟨s4, h4, h⟩
  · have h0 := cmd_err h
    have e1 := cmd_ok h1
    subst e1
    have e2 := cmd_ok h2
    subst e2
    have e3 := cmd_ok h3
    subst e3 h0
    intro e he
    fin_cases he <;> simp [evFixed]
  rcases ebind_err h with h | ⟨s5, h5, h⟩
  · have h0 := cmd_err h
    have e1 := cmd_ok h1
    subst e1
    have e2 := cmd_ok h2
    subst e2
    have e3 := cmd_ok h3
    subst e3
    have e4 := cmd_ok h4
    subst e4 h0
    intro e he
    fin_cases he <;> simp [evFixed]
  rcases ebind_err h with h | ⟨s6, h6, h⟩
  · have h0 := cmd_err h
    have e1 := cmd_ok h1
    subst e1
    have e2 := cmd_ok h2
    subst e2
    have e3 := cmd_ok h3
    subst e3
    have e4 := cmd_ok h4
    subst e4
    have e5 := cmd_ok h5
    subst e5 h0
    intro e he
    fin_cases he <;> simp [evFixed]
  rcases ebind_err h with h | ⟨s7, h7, h⟩
  · have h0 := cmd_err h
    have e1 := cmd_ok h1
    subst e1
    have e2 := cmd_ok h2
    subst e2
    have e3 := cmd_ok h3
    subst e3
    have e4 := cmd_ok h4
    subst e4
    have e5 := cmd_ok h5
    subst e5
    have e6 := cmd_ok h6
    subst e6 h0
    intro e he
    fin_cases he <;> simp [evFixed]
  rcases ebind_err h with h | ⟨s8, h8, h⟩
  · obtain ⟨pre, hpre, hall⟩ := sendRasters_err data h
    have e1 := cmd_ok h1
    subst e1
    have e2 := cmd_ok h2
    subst e2
    have e3 := cmd_ok h3
    subst e3
    have e4 := cmd_ok h4
    subst e4
    have e5 := cmd_ok h5
    subst e5
    have e6 := cmd_ok h6
    subst e6
    have e7 := cmd_ok h7
    subst e7
    subst hpre
    intro e he
    rcases List.mem_append.mp he with hm | hm
    · fin_cases hm <;> simp [evFixed]
    · obtain ⟨bytes, rfl⟩ := hall e hm
      trivial
  · have h0 := cmd_err h
    have e8 := sendRasters_ok data h8
    have e1 := cmd_ok h1
    subst e1
    have e2 := cmd_ok h2
    subst e2
    have e3 := cmd_ok h3
    subst e3
    have e4 := cmd_ok h4
    subst e4
    have e5 := cmd_ok h5
    subst e5
    have e6 := cmd_ok h6
    subst e6
    have e7 := cmd_ok h7
    subst e7
    subst h0
    rw [e8]
    intro e he
    rcases List.mem_append.mp he with hm | hm
    · fin_cases hm <;> simp [evFixed]
    · obtain ⟨l, _, rfl⟩ := List.mem_map.mp hm
      trivial

/-- Helper for C3 and C10: a successful `print_raw` call transmits exactly
the seven configuration frames in protocol order, one raster-transfer frame
per input line in input order, print-and-feed, and then one or more
status-request/read pairs. -/
theorem printRaw_ok_events {data : List (List Nat)} {info : PrintInfo}
    {wr : Nat → Option Error} {reads : Nat → Option Status} {tr : List Ev}
    (h : printRaw data info wr reads = (Except.ok (), tr)) :
    ∃ m, 1 ≤ m ∧
      tr = configEvents info ++
        data.map (fun l => Ev.rasterTransfer (compress l)) ++
        [Ev.printAndFeed] ++ pollPairs m := by
  unfold printRaw at h
  cases hs : sendCommands data info wr with
  | error p =>
    rcases p with ⟨e, tr0⟩
    rw [hs] at h
    injection h with h1 h2
    cases h1
  | ok st =>
    rw [hs] at h
    have hst := sendCommands_ok hs
    obtain ⟨m, hm, htr⟩ := pollTrace_ok_pairs wr reads 11 0 rfl 0 st tr h
    refine ⟨m, hm, ?_⟩
    rw [htr, hst]

/-- Every frame `print_raw` ever transmits (on any outcome) carries the
hard-coded margin, various-mode and advanced-mode parameters. -/
theorem printRaw_events_fixed (data : List (List Nat)) (info : PrintInfo)
    (wr : Nat → Option Error) (reads : Nat → Option Status) :
    ∀ e ∈ (printRaw data info wr reads).2, evFixed e := by
  unfold printRaw
  cases hs : sendCommands data info wr with
  | error p =>
    rcases p with ⟨er, tr0⟩
    exact sendCommands_err hs
  | ok st =>
    rcases hp : pollTrace wr reads 0 0 st with ⟨res, tr⟩
    obtain ⟨pre, htr, hpre⟩ :=
      pollTrace_trace_status wr reads 11 0 rfl 0 st res tr hp
    have hst := sendCommands_ok hs
    simp only []
    rw [hp]
    intro e he0
    have he : e ∈ tr := he0
    rw [htr] at he
    rcases List.mem_append.mp he with hm | hm
    · rw [hst] at hm
      rcases List.mem_append.mp hm with hm2 | hm2
      · rcases List.mem_append.mp hm2 with hm3 | hm3
        · fin_cases hm3 <;> simp [evFixed]
        · obtain ⟨l, _, rfl⟩ := List.mem_map.mp hm3
          trivial
      · rcases List.mem_cons.mp hm2 with rfl | hm3
        · trivial
        · cases hm3
    · rcases hpre e hm with rfl | rfl <;> trivial

/-! ## Theorems -/

/-- C1: with one matching device and requested index 1 (= N), selection
reaches `matches.remove(1)` on a one-element vector and panics, instead of
returning `InvalidIndex` as the specification requires for index ≥ N. -/
theorem selectDevice_index_eq_count_panics :
    selectDevice [⟨BROTHER_VID, 0x20AF, 0⟩] 0x20AF 1 = SelectResult.panic := by
  decide

/-- C9: endpoint discovery succeeds, recording a bulk OUT address as the
command endpoint and a bulk IN address as the status endpoint, exactly when
the first interface has at least one bulk endpoint of each direction;
otherwise (including when no interface exists) it fails with
`InvalidEndpoints`. -/
theorem findEndpoints_bulk_endpoints (interfaces : List UsbInterface) :
    (interfaces = [] →
      findEndpoints interfaces = Except.error Error.InvalidEndpoints) ∧
    ∀ intf, interfaces.head? = some intf →
      (((∃ ep ∈ flatEps intf, isBulkDir Direction.Out ep = true) ∧
        (∃ ep ∈ flatEps intf, isBulkDir Direction.In ep = true)) →
        ∃ c s, findEndpoints interfaces = Except.ok (c, s) ∧
          (∃ ep ∈ flatEps intf, isBulkDir Direction.Out ep = true ∧
            ep.address = c) ∧
          (∃ ep ∈ flatEps intf, isBulkDir Direction.In ep = true ∧
            ep.address = s)) ∧
      (((¬ ∃ ep ∈ flatEps intf, isBulkDir Direction.Out ep = true) ∨
        (¬ ∃ ep ∈ flatEps intf, isBulkDir Direction.In ep = true)) →
        findEndpoints interfaces = Except.error Error.InvalidEndpoints) := by
  constructor
  · intro h
    subst h
    rfl
  · intro intf hhead
    have hfind : findEndpoints interfaces =
        match (flatEps intf).foldl epStep (none, none) with
        | (some cmd, some stat) => Except.ok (cmd, stat)
        | _ => Except.error Error.InvalidEndpoints := by
      simp only [findEndpoints, hhead]
      rw [foldl_nested_eq_join]
      rfl
    rcases hP : (flatEps intf).foldl epStep (none, none) with ⟨c1, c2⟩
    rw [hP] at hfind
    rcases foldl_epStep_fst (flatEps intf) (none, none) with
      ⟨hfst, hnoout⟩ | ⟨epo, hmo, hoo, haddro⟩ <;>
    rcases foldl_epStep_snd (flatEps intf) (none, none) with
      ⟨hsnd, hnoin⟩ | ⟨epi, hmi, hii, haddri⟩
    · rw [hP] at hfst
      simp only at hfst
      subst hfst
      constructor
      · intro ⟨hexo, _⟩
        exact absurd hexo hnoout
      · intro _
        rw [hfind]
    · rw [hP] at hfst
      simp only at hfst
      subst hfst
      constructor
      · intro ⟨hexo, _⟩
        exact absurd hexo hnoout
      · intro _
        rw [hfind]
    · rw [hP] at hsnd
      simp only at hsnd
      subst hsnd
      constructor
      · intro ⟨_, hexi⟩
        exact absurd hexi hnoin
      · intro _
        rw [hfind]
        cases c1 <;> rfl
    · rw [hP] at haddro haddri
      simp only at haddro haddri
      subst haddro
      subst haddri
      constructor
      · intro _
        exact ⟨epo.address, epi.address, hfind, ⟨epo, hmo, hoo, rfl⟩,
          ⟨epi, hmi, hii, rfl⟩⟩
      · intro hmiss
        rcases hmiss with hmiss | hmiss
        · exact absurd ⟨epo, hmo, hoo⟩ hmiss
        · exact absurd ⟨epi, hmi, hii⟩ hmiss

/-- Witness for C9 on a descriptor with one bulk IN and one bulk OUT
endpoint in its single interface. -/
theorem findEndpoints_bulk_endpoints_witness :
    ∃ c s,
      findEndpoints
        [⟨[⟨[⟨TransferType.Bulk, Direction.In, 0x81⟩,
             ⟨TransferType.Bulk, Direction.Out, 0x02⟩]⟩]⟩] =
        Except.ok (c, s) ∧
      (∃ ep ∈ flatEps ⟨[⟨[⟨TransferType.Bulk, Direction.In, 0x81⟩,
             ⟨TransferType.Bulk, Direction.Out, 0x02⟩]⟩]⟩,
        isBulkDir Direction.Out ep = true ∧ ep.address = c) ∧
      (∃ ep ∈ flatEps ⟨[⟨[⟨TransferType.Bulk, Direction.In, 0x81⟩,
             ⟨TransferType.Bulk, Direction.Out, 0x02⟩]⟩]⟩,
        isBulkDir Direction.In ep = true ∧ ep.address = s) :=
  ((findEndpoints_bulk_endpoints
      [⟨[⟨[⟨TransferType.Bulk, Direction.In, 0x81⟩,
           ⟨TransferType.Bulk, Direction.Out, 0x02⟩]⟩]⟩]).2
    ⟨[⟨[⟨TransferType.Bulk, Direction.In, 0x81⟩,
        ⟨TransferType.Bulk, Direction.Out, 0x02⟩]⟩]⟩ rfl).1
    ⟨by decide, by decide⟩

/-- C2 counterexample: with every status read failing (never a terminal
state), the poll loop performs 12 `read_status` attempts before returning
`Timeout`, not 11 as claimed. -/
theorem pollLoop_attempts_not_eleven :
    pollLoop (fun _ => none) 0 0 = (PollResult.timeout, 12, 11) ∧
    (12 : Nat) ≠ 11 := by
  constructor
  · have h := pollLoop_all_nonterminal (fun _ => none) (fun k => rfl) 11
      (le_refl 11) 0
    simpa using h
  · decide

/-- C2 (amended): if no status read during the completion poll ever reports
an error or a completed status, the print call fails with `Timeout` after
exactly 12 status poll attempts (the `i > 10` guard is checked after each
read and the counter increments after the check), with a 1-second sleep
between consecutive iterations (11 sleeps). -/
theorem pollLoop_timeout_bound (reads : Nat → Option Status)
    (h : ∀ k s, reads k = some s →
      s.error1 = 0 ∧ s.error2 = 0 ∧ s.status_type ≠ DeviceStatus.Completed) :
    pollLoop reads 0 0 = (PollResult.timeout, 12, 11) := by
  have hn : ∀ k, checkStatus (reads k) = none := by
    intro k
    cases hr : reads k with
    | none => rfl
    | some s =>
      have hs := h k s hr
      simp [checkStatus, hs.1, hs.2.1, hs.2.2]
  have := pollLoop_all_nonterminal reads hn 11 (le_refl 11) 0
  simpa using this

/-- Witness for C2 at the all-reads-fail input. -/
theorem pollLoop_timeout_bound_witness :
    pollLoop (fun _ => (none : Option Status)) 0 0 =
      (PollResult.timeout, 12, 11) :=
  pollLoop_timeout_bound (fun _ => none) (fun _ s hs => by cases hs)

/-- C5: whenever the completion poll reaches a successfully read status
frame with a non-empty error-bit-set (all earlier reads having been
non-terminal, within the loop bound), the print call fails with `PTouch`
carrying both error-bit-sets of that frame verbatim. -/
theorem pollLoop_surfaces_error_bits (reads : Nat → Option Status)
    (k : Nat) (s : Status) (hk : k ≤ 11)
    (hpre : ∀ j, j < k → checkStatus (reads j) = none)
    (hread : reads k = some s)
    (herr : s.error1 ≠ 0 ∨ s.error2 ≠ 0) :
    (pollLoop reads 0 0).1 = PollResult.ptouch s.error1 s.error2 := by
  apply pollLoop_error_frame k reads 0 0 s (by omega)
  · intro j hj
    have := hpre j hj
    simpa using this
  · simpa using hread
  · exact herr

/-- Witness for C5: the first read returns a frame with error bits set. -/
theorem pollLoop_surfaces_error_bits_witness :
    (0 : Nat) ≤ 11 ∧
    (pollLoop (fun _ => some ⟨DeviceStatus.ErrorOccurred, 5, 9⟩) 0 0).1 =
      PollResult.ptouch 5 9 :=
  ⟨by decide,
   pollLoop_surfaces_error_bits
     (fun _ => some ⟨DeviceStatus.ErrorOccurred, 5, 9⟩) 0
     ⟨DeviceStatus.ErrorOccurred, 5, 9⟩ (by decide)
     (fun j hj => absurd hj (Nat.not_lt_zero j)) rfl (by decide)⟩

/-- C6: a failed status read during the completion poll never terminates
the print call on that iteration: the loop either retries (its result is
exactly the next iteration's result) or, only when the fixed bound
`i > 10` has been reached, returns `Timeout`. -/
theorem pollLoop_swallows_failed_read (reads : Nat → Option Status)
    (k i : Nat) (hread : reads k = none) :
    pollLoop reads k i =
      if 10 < i then (PollResult.timeout, 1, 0)
      else
        ((pollLoop reads (k + 1) (i + 1)).1,
         (pollLoop reads (k + 1) (i + 1)).2.1 + 1,
         (pollLoop reads (k + 1) (i + 1)).2.2 + 1) := by
  rw [pollLoop_step, hread]
  rfl

/-- Witness for C6 at a concrete failed read on the first iteration. -/
theorem pollLoop_swallows_failed_read_witness :
    pollLoop (fun _ => (none : Option Status)) 0 0 =
      if 10 < 0 then (PollResult.timeout, 1, 0)
      else
        ((pollLoop (fun _ => (none : Option Status)) 1 1).1,
         (pollLoop (fun _ => (none : Option Status)) 1 1).2.1 + 1,
         (pollLoop (fun _ => (none : Option Status)) 1 1).2.2 + 1) :=
  pollLoop_swallows_failed_read (fun _ => none) 0 0 rfl

/-- C3: for every input list of raster lines, a successful `print_raw` call
transmits exactly: mode-switch, status-notify, print-info, various-mode,
advanced-mode, margin, compression-mode, one raster-transfer frame per input
line in input order, print-and-feed, and then one or more
status-request/read pairs — nothing else. -/
theorem printRaw_command_order (data : List (List Nat)) (info : PrintInfo)
    (wr : Nat → Option Error) (reads : Nat → Option Status) (tr : List Ev)
    (h : printRaw data info wr reads = (Except.ok (), tr)) :
    ∃ m, 1 ≤ m ∧
      tr = configEvents info ++
        data.map (fun l => Ev.rasterTransfer (compress l)) ++
        [Ev.printAndFeed] ++ pollPairs m :=
  printRaw_ok_events h

/-- Witness for C3: three raster lines, all writes accepted, first status
read reports completion. -/
theorem printRaw_command_order_witness :
    ∃ m, 1 ≤ m ∧
      configEvents ⟨0, 0, 0, false⟩ ++
          [Ev.rasterTransfer (compress [1, 2, 3]),
           Ev.rasterTransfer (compress [4, 4, 4]),
           Ev.rasterTransfer (compress [5, 6, 6])] ++
          [Ev.printAndFeed] ++ pollPairs 1 =
        configEvents ⟨0, 0, 0, false⟩ ++
          ([[1, 2, 3], [4, 4, 4], [5, 6, 6]] : List (List Nat)).map
            (fun l => Ev.rasterTransfer (compress l)) ++
          [Ev.printAndFeed] ++ pollPairs m :=
  printRaw_command_order [[1, 2, 3], [4, 4, 4], [5, 6, 6]] ⟨0, 0, 0, false⟩
    (fun _ => none) (fun _ => some ⟨DeviceStatus.Completed, 0, 0⟩)
    (configEvents ⟨0, 0, 0, false⟩ ++
      [Ev.rasterTransfer (compress [1, 2, 3]),
       Ev.rasterTransfer (compress [4, 4, 4]),
       Ev.rasterTransfer (compress [5, 6, 6])] ++
      [Ev.printAndFeed] ++ pollPairs 1)
    (by simp [printRaw, sendCommands, cmd, sendRasters, pollTrace, readStatus,
          stepResult, configEvents, pollPairs, bind, Except.bind])

/-- C10: every margin frame `print_raw` transmits carries the fixed amount
14, every various-mode frame carries exactly the auto-cut flag, and every
advanced-mode frame carries exactly the no-chain flag, regardless of the
supplied raster data and `PrintInfo`; and every successful call does
transmit all three. -/
theorem printRaw_fixed_parameters (data : List (List Nat)) (info : PrintInfo)
    (wr : Nat → Option Error) (reads : Nat → Option Status)
    (r : Except Error Unit) (tr : List Ev)
    (h : printRaw data info wr reads = (r, tr)) :
    (∀ n, Ev.setMargin n ∈ tr → n = 14) ∧
    (∀ v, Ev.setVariousMode v ∈ tr → v = VariousMode.AUTO_CUT) ∧
    (∀ a, Ev.setAdvancedMode a ∈ tr → a = AdvancedMode.NO_CHAIN) ∧
    (r = Except.ok () →
      Ev.setMargin 14 ∈ tr ∧
      Ev.setVariousMode VariousMode.AUTO_CUT ∈ tr ∧
      Ev.setAdvancedMode AdvancedMode.NO_CHAIN ∈ tr) := by
  have hfix := printRaw_events_fixed data info wr reads
  rw [h] at hfix
  refine ⟨?_, ?_, ?_, ?_⟩
  · intro n hn
    exact hfix _ hn
  · intro v hv
    exact hfix _ hv
  · intro a ha
    exact hfix _ ha
  · intro hr
    subst hr
    obtain ⟨m, _, htr⟩ := printRaw_ok_events h
    subst htr
    refine ⟨?_, ?_, ?_⟩ <;> simp [configEvents]

/-- Witness for C10: a concrete call (empty raster data, all writes
accepted, first read completed). -/
theorem printRaw_fixed_parameters_witness :
    (∀ n, Ev.setMargin n ∈
        configEvents ⟨0, 0, 0, false⟩ ++
          ([] : List (List Nat)).map (fun l => Ev.rasterTransfer (compress l)) ++
          [Ev.printAndFeed] ++ pollPairs 1 → n = 14) ∧
    (∀ v, Ev.setVariousMode v ∈
        configEvents ⟨0, 0, 0, false⟩ ++
          ([] : List (List Nat)).map (fun l => Ev.rasterTransfer (compress l)) ++
          [Ev.printAndFeed] ++ pollPairs 1 → v = VariousMode.AUTO_CUT) ∧
    (∀ a, Ev.setAdvancedMode a ∈
        configEvents ⟨0, 0, 0, false⟩ ++
          ([] : List (List Nat)).map (fun l => Ev.rasterTransfer (compress l)) ++
          [Ev.printAndFeed] ++ pollPairs 1 → a = AdvancedMode.NO_CHAIN) ∧
    ((Except.ok () : Except Error Unit) = Except.ok () →
      Ev.setMargin 14 ∈
        configEvents ⟨0, 0, 0, false⟩ ++
          ([] : List (List Nat)).map (fun l => Ev.rasterTransfer (compress l)) ++
          [Ev.printAndFeed] ++ pollPairs 1 ∧
      Ev.setVariousMode VariousMode.AUTO_CUT ∈
        configEvents ⟨0, 0, 0, false⟩ ++
          ([] : List (List Nat)).map (fun l => Ev.rasterTransfer (compress l)) ++
          [Ev.printAndFeed] ++ pollPairs 1 ∧
      Ev.setAdvancedMode AdvancedMode.NO_CHAIN ∈
        configEvents ⟨0, 0, 0, false⟩ ++
          ([] : List (List Nat)).map (fun l => Ev.rasterTransfer (compress l)) ++
          [Ev.printAndFeed] ++ pollPairs 1) :=
  printRaw_fixed_parameters [] ⟨0, 0, 0, false⟩ (fun _ => none)
    (fun _ => some ⟨DeviceStatus.Completed, 0, 0⟩) (Except.ok ())
    (configEvents ⟨0, 0, 0, false⟩ ++
      ([] : List (List Nat)).map (fun l => Ev.rasterTransfer (compress l)) ++
      [Ev.printAndFeed] ++ pollPairs 1)
    (by simp [printRaw, sendCommands, cmd, sendRasters, pollTrace, readStatus,
          stepResult, configEvents, pollPairs, bind, Except.bind])

/-- C4: for every 16-byte raster line, decompressing its PackBits
compression gives back the original line. -/
theorem decompress_compress_line (l : List Nat) (h : l.length = 16) :
    decompress (compress l) = l :=
  decompress_compress_bounded 16 l (by omega) (by omega)

/-- Witness for C4 at a concrete 16-byte raster line. -/
theorem decompress_compress_line_witness :
    ([1, 2, 2, 3, 3, 3, 4, 0, 0, 0, 0, 0, 0, 0, 9, 9] : List Nat).length = 16 ∧
    decompress (compress [1, 2, 2, 3, 3, 3, 4, 0, 0, 0, 0, 0, 0, 0, 9, 9]) =
      [1, 2, 2, 3, 3, 3, 4, 0, 0, 0, 0, 0, 0, 0, 9, 9] :=
  ⟨by decide,
   decompress_compress_line [1, 2, 2, 3, 3, 3, 4, 0, 0, 0, 0, 0, 0, 0, 9, 9]
     (by decide)⟩

/-- C7: for every byte sequence and every transport-accepted count, the bulk
write returns success exactly when the accepted count equals the requested
length, and fails with `Timeout` otherwise; a lower-level transport error is
surfaced as `Usb`, never as success. -/
theorem writeBulk_timeout_iff_partial (data : List Nat) (n : Nat) :
    writeBulk data (Except.ok n) =
      (if n = data.length then Except.ok () else Except.error Error.Timeout) ∧
    ∀ e, writeBulk data (Except.error e) = Except.error (Error.Usb e) := by
  constructor
  · by_cases h : n = data.length <;> simp [writeBulk, h]
  · intro e; rfl

/-- C8: for every transport outcome delivering `recv.length ≤ 32` bytes, the
bulk read fails with `Timeout` exactly when fewer than 32 bytes were
received, and on success returns a full 32-byte frame. -/
theorem readBulk_short_read_timeout (recv : List Nat) (h : recv.length ≤ 32) :
    readBulk (Except.ok recv) =
      (if recv.length < 32 then Except.error Error.Timeout
       else Except.ok recv) ∧
    ∀ f, readBulk (Except.ok recv) = Except.ok f → f.length = 32 := by
  constructor
  · by_cases h32 : recv.length = 32
    · simp [readBulk, h32]
    · have hlt : recv.length < 32 := lt_of_le_of_ne h h32
      simp [readBulk, h32, hlt]
  · intro f hf
    by_cases h32 : recv.length = 32
    · simp [readBulk, h32] at hf
      subst hf
      simp [h32]
    · simp [readBulk, h32] at hf

/-- Witness for C8 at a concrete short read of 31 bytes. -/
theorem readBulk_short_read_timeout_witness :
    (List.replicate 31 0).length ≤ 32 ∧
    (readBulk (Except.ok (List.replicate 31 0)) =
      (if (List.replicate 31 0).length < 32 then Except.error Error.Timeout
       else Except.ok (List.replicate 31 0)) ∧
     ∀ f, readBulk (Except.ok (List.replicate 31 0)) = Except.ok f →
       f.length = 32) :=
  ⟨by decide, readBulk_short_read_timeout (List.replicate 31 0) (by decide)⟩

end PTouchSpec
